import Mathlib

/-!
Shallow embedding of the HiklQQBot CXServer plugin (BindServer.py and
CXServerAPI.py): the per-group binding registry (add / remove / load over a
flat whitespace-delimited record file) and the status-query pipeline
(per-target outcome handling, JSON report rendering, base64 + tag-strip
server-name decoding).  Files are modelled as their list of text lines; the
plugin state is a map from group id to the optional line list of that
group's file.  Remote I/O is modelled as a function from query targets to
an outcome value.  Python exceptions that escape a helper are modelled with
Except, carrying the exception class name that the caller's handler prints.
-/

set_option maxHeartbeats 1000000

namespace CXPlugin

/-- Python whitespace (the characters str.split and str.strip treat as
separators): space, tab, newline, carriage return, vertical tab, form feed. -/
def isPyWS (c : Char) : Bool :=
  c == ' ' || c == '\t' || c == '\n' || c == '\r' || c == '\x0b' || c == '\x0c'

/-- Python str.strip(): drop leading and trailing whitespace. -/
def pyStrip (s : String) : String :=
  String.mk (((s.data.dropWhile isPyWS).reverse.dropWhile isPyWS).reverse)

/-- Accumulator-passing tokenizer for Python str.split() with no argument:
split on runs of whitespace, never producing empty tokens.  The accumulator
holds the current word reversed. -/
def splitWSAux : List Char → List Char → List String
  | acc, [] => if acc.isEmpty then [] else [String.mk acc.reverse]
  | acc, c :: cs =>
    if isPyWS c then
      if acc.isEmpty then splitWSAux [] cs
      else String.mk acc.reverse :: splitWSAux [] cs
    else splitWSAux (c :: acc) cs

/-- Python str.split() with no argument. -/
def splitWS (s : String) : List String :=
  splitWSAux [] s.data

/-- Python sep.join(xs). -/
def pyJoin (sep : String) : List String → String
  | [] => ""
  | [x] => x
  | x :: xs => x ++ sep ++ pyJoin sep xs

/-- A word as produced by str.split(): nonempty and free of whitespace. -/
def isToken (s : String) : Bool :=
  !(s == "") && s.data.all (fun c => !isPyWS c)

/-! ## Binding registry (BindServer.py) -/

/-- The persisted binding storage: each group id maps to the line list of its
record file, or none when the file does not exist. -/
abbrev Store := String → Option (List String)

/-- One iteration of the load loop of BindServerPlugin._load_servers: strip
the line, skip it when empty or when it has fewer than two whitespace
separated tokens, otherwise keep the token tuple. -/
def parseRecordLine (line : String) : Option (List String) :=
  let l := pyStrip line
  if l = "" then none
  else
    let parts := splitWS l
    if 2 ≤ parts.length then some parts else none

/-- BindServerPlugin._load_servers: parse the group's file into record
tuples, dropping malformed lines; a missing file loads as the empty list. -/
def _load_servers (store : Store) (group_id : String) : List (List String) :=
  match store group_id with
  | none => []
  | some lines => lines.filterMap parseRecordLine

/-- The duplicate test of _add_server / the member test of _check_server:
the record's first two fields equal the given server key and account id
(the stored port, if any, is ignored). -/
def identMatch (server_key account_id : String) (r : List String) : Bool :=
  (r[0]? == some server_key) && (r[1]? == some account_id)

/-- Truthiness of the optional port argument (Python `if port:`). -/
def portTruthy : Option String → Bool
  | none => false
  | some p => !(p == "")

/-- The line _add_server writes: "key acct" plus " port" when the port is
truthy. -/
def addRecordLine (server_key account_id : String) (port : Option String) : String :=
  if portTruthy port then (server_key ++ " " ++ account_id) ++ (" " ++ port.getD "")
  else server_key ++ " " ++ account_id

/-- BindServerPlugin._add_server: reject when a stored record already has the
same (key, accountId); otherwise append one record line to the group's file
(creating it when absent).  Returns the user-visible reply and the new
store. -/
def _add_server (store : Store) (group_id server_key account_id : String)
    (port : Option String) : String × Store :=
  let servers := _load_servers store group_id
  if servers.any (identMatch server_key account_id) then
    ("ℹ️ 该服务器信息已存在", store)
  else
    let record := addRecordLine server_key account_id port
    (("✅ 已添加服务器\nKey: " ++ server_key ++ "\nAccountID: " ++ account_id)
        ++ (if portTruthy port then "\nPort: " ++ port.getD "" else ""),
     fun g => if g = group_id then some ((store group_id).getD [] ++ [record]) else store g)

/-- BindServerPlugin._remove_server: drop every record whose first two fields
match; when nothing was dropped report not-found and leave the store alone,
otherwise rewrite the group's file with the kept records joined by single
spaces. -/
def _remove_server (store : Store) (group_id server_key account_id : String) :
    String × Store :=
  let servers := _load_servers store group_id
  let new_servers := servers.filter (fun r => !identMatch server_key account_id r)
  if new_servers.length = servers.length then
    ("ℹ️ 未找到匹配的服务器信息", store)
  else
    ("✅ 已移除服务器\nKey: " ++ server_key ++ "\nAccountID: " ++ account_id,
     fun g => if g = group_id then some (new_servers.map (fun r => pyJoin " " r)) else store g)

/-! ## JSON values (the shape json.loads produces) -/

/-- JSON values as decoded by json.loads.  Numbers are restricted to the
integers, which covers every numeric field the status API uses. -/
inductive Json where
  | null : Json
  | bool : Bool → Json
  | num : Int → Json
  | str : String → Json
  | arr : List Json → Json
  | obj : List (String × Json) → Json

/-- Python truthiness of a JSON value: None, False, 0, "", [] and the empty
dict are falsy. -/
def Json.truthy : Json → Bool
  | .null => false
  | .bool b => b
  | .num n => !(n == 0)
  | .str s => !(s == "")
  | .arr xs => !xs.isEmpty
  | .obj fs => !fs.isEmpty

/-- Python dict.get(key, default) on a decoded JSON object. -/
def jget (fields : List (String × Json)) (key : String) (dflt : Json) : Json :=
  match fields.lookup key with
  | some v => v
  | none => dflt

mutual

/-- CPython repr() of a JSON value (strings single-quoted; escape sequences
inside string payloads are not modelled, which is exact for quote-free and
backslash-free text). -/
def pyRepr : Json → String
  | Json.null => "None"
  | Json.bool b => if b then "True" else "False"
  | Json.num n => toString n
  | Json.str s => "\x27" ++ s ++ "\x27"
  | Json.arr xs => "[" ++ pyJoin ", " (pyReprList xs) ++ "]"
  | Json.obj fs => "\x7b" ++ pyJoin ", " (pyReprFields fs) ++ "\x7d"

def pyReprList : List Json → List String
  | [] => []
  | x :: xs => pyRepr x :: pyReprList xs

def pyReprFields : List (String × Json) → List String
  | [] => []
  | (k, v) :: fs => ("\x27" ++ k ++ "\x27: " ++ pyRepr v) :: pyReprFields fs

end

/-- CPython str() of a JSON value: identity on strings, repr elsewhere. -/
def pyStr : Json → String
  | Json.str s => s
  | j => pyRepr j

/-! ## Base64 and UTF-8 (ServerInfoDecoder externals) -/

/-- Value of one base64 alphabet character. -/
def b64Val (c : Char) : Option Nat :=
  if 'A' ≤ c ∧ c ≤ 'Z' then some (c.toNat - 'A'.toNat)
  else if 'a' ≤ c ∧ c ≤ 'z' then some (c.toNat - 'a'.toNat + 26)
  else if '0' ≤ c ∧ c ≤ '9' then some (c.toNat - '0'.toNat + 52)
  else if c = '+' then some 62
  else if c = '/' then some 63
  else none

/-- Decode a run of 6-bit groups into bytes; a trailing group of two or
three sextets yields one or two bytes (the padded forms), a trailing single
sextet cannot arise from well-padded input. -/
def b64Sextets : List Nat → List Nat
  | a :: b :: c :: d :: rest =>
    (a * 4 + b / 16) :: ((b % 16) * 16 + c / 4) :: ((c % 4) * 64 + d) :: b64Sextets rest
  | [a, b] => [a * 4 + b / 16]
  | [a, b, c] => [a * 4 + b / 16, (b % 16) * 16 + c / 4]
  | _ => []

/-- base64.b64decode with validate=False: characters outside the alphabet
are discarded, then the (data plus padding) length must be a multiple of
four or binascii raises. -/
def b64decode (s : String) : Except String (List Nat) :=
  let cs := s.data.filter (fun c => (b64Val c).isSome || c == '=')
  let body := cs.takeWhile (fun c => !(c == '='))
  let pad := (cs.dropWhile (fun c => !(c == '='))).length
  let sextets := body.filterMap b64Val
  if (sextets.length + pad) % 4 = 0 ∧ sextets.length % 4 ≠ 1 then
    Except.ok (b64Sextets sextets)
  else Except.error "binascii.Error"

/-- bytes.decode('utf-8', errors='ignore'): standard UTF-8 decoding where
any ill-formed byte is skipped instead of raising. -/
def utf8DecodeIgnoreFuel : Nat → List Nat → List Char
  | _, [] => []
  | 0, _ => []
  | fuel + 1, b :: rest =>
    if b < 0x80 then Char.ofNat b :: utf8DecodeIgnoreFuel fuel rest
    else if 0xc2 ≤ b ∧ b ≤ 0xdf then
      match rest with
      | b2 :: rest2 =>
        if 0x80 ≤ b2 ∧ b2 < 0xc0 then
          Char.ofNat ((b - 0xc0) * 64 + (b2 - 0x80)) :: utf8DecodeIgnoreFuel fuel rest2
        else utf8DecodeIgnoreFuel fuel rest
      | [] => []
    else if 0xe0 ≤ b ∧ b ≤ 0xef then
      match rest with
      | b2 :: b3 :: rest3 =>
        if (0x80 ≤ b2 ∧ b2 < 0xc0) ∧ (0x80 ≤ b3 ∧ b3 < 0xc0) ∧
            (b = 0xe0 → 0xa0 ≤ b2) ∧ (b = 0xed → b2 < 0xa0) then
          Char.ofNat ((b - 0xe0) * 4096 + (b2 - 0x80) * 64 + (b3 - 0x80)) ::
            utf8DecodeIgnoreFuel fuel rest3
        else utf8DecodeIgnoreFuel fuel rest
      | _ => []
    else if 0xf0 ≤ b ∧ b ≤ 0xf4 then
      match rest with
      | b2 :: b3 :: b4 :: rest4 =>
        if (0x80 ≤ b2 ∧ b2 < 0xc0) ∧ (0x80 ≤ b3 ∧ b3 < 0xc0) ∧ (0x80 ≤ b4 ∧ b4 < 0xc0) ∧
            (b = 0xf0 → 0x90 ≤ b2) ∧ (b = 0xf4 → b2 < 0x90) then
          Char.ofNat ((b - 0xf0) * 262144 + (b2 - 0x80) * 4096 + (b3 - 0x80) * 64 + (b4 - 0x80)) ::
            utf8DecodeIgnoreFuel fuel rest4
        else utf8DecodeIgnoreFuel fuel rest
      | _ => []
    else utf8DecodeIgnoreFuel fuel rest

/-- bytes.decode('utf-8', errors='ignore'), with fuel fixed to the byte
count (each step consumes at least one byte, so the fuel never runs out). -/
def utf8DecodeIgnore (bs : List Nat) : List Char :=
  utf8DecodeIgnoreFuel bs.length bs

/-- UTF-8 encoding of one character (used only to state theorems about
concrete encoded inputs). -/
def utf8EncodeChar (c : Char) : List Nat :=
  let n := c.toNat
  if n < 0x80 then [n]
  else if n < 0x800 then [0xc0 + n / 64, 0x80 + n % 64]
  else if n < 0x10000 then [0xe0 + n / 4096, 0x80 + (n / 64) % 64, 0x80 + n % 64]
  else [0xf0 + n / 262144, 0x80 + (n / 4096) % 64, 0x80 + (n / 64) % 64, 0x80 + n % 64]

/-- The base64 alphabet character of a 6-bit value. -/
def b64Char (n : Nat) : Char :=
  ("ABCDEFGHIJKLMNOPQRSTUVWXYZabcdefghijklmnopqrstuvwxyz0123456789+/").data.getD n 'A'

/-- Encode bytes to base64 characters, with padding. -/
def b64EncGroups : List Nat → List Char
  | b1 :: b2 :: b3 :: rest =>
    b64Char (b1 / 4) :: b64Char ((b1 % 4) * 16 + b2 / 16) ::
      b64Char ((b2 % 16) * 4 + b3 / 64) :: b64Char (b3 % 64) :: b64EncGroups rest
  | [b1, b2] => [b64Char (b1 / 4), b64Char ((b1 % 4) * 16 + b2 / 16), b64Char ((b2 % 16) * 4), '=']
  | [b1] => [b64Char (b1 / 4), b64Char ((b1 % 4) * 16), '=', '=']
  | [] => []

/-- base64.b64encode of a text string's UTF-8 bytes (used only to state
theorems about concrete encoded inputs). -/
def b64encode (s : String) : String :=
  String.mk (b64EncGroups ((s.data.map utf8EncodeChar).flatten))

/-! ## Tag stripping and server-name decoding (CXServerAPI) -/

/-- Length of a match of the first regex alternative `<[^>]+>` starting
right after a read '<': at least one non-'>' character, then '>'.  Returns
the number of characters to consume after the '<'. -/
def angleMatchLen (rest : List Char) : Option Nat :=
  let taken := rest.takeWhile (fun c => !(c == '>'))
  if 0 < taken.length ∧ (rest.drop taken.length).head? = some '>' then
    some (taken.length + 1)
  else none

/-- Length of a match of the second regex alternative (bracket tags
`[tag]` or `[/tag]`, letters only, case-insensitive) starting right after a
read '['.  Returns the number of characters to consume after the '['. -/
def bracketMatchLen (rest : List Char) : Option Nat :=
  let slash := if rest.head? = some '/' then 1 else 0
  let letters := (rest.drop slash).takeWhile Char.isAlpha
  if 0 < letters.length ∧ (rest.drop (slash + letters.length)).head? = some ']' then
    some (slash + letters.length + 1)
  else none

def stripTagsFuel : Nat → List Char → List Char
  | _, [] => []
  | 0, cs => cs
  | fuel + 1, c :: rest =>
    if c == '<' then
      match angleMatchLen rest with
      | some n => stripTagsFuel fuel (rest.drop n)
      | none => c :: stripTagsFuel fuel rest
    else if c == '[' then
      match bracketMatchLen rest with
      | some n => stripTagsFuel fuel (rest.drop n)
      | none => c :: stripTagsFuel fuel rest
    else c :: stripTagsFuel fuel rest

/-- self.tag_regex.sub('', text): delete every non-overlapping, leftmost
match of the pattern matching HTML-style tags and simple BBCode tags.  Fuel
fixed to the character count (each step consumes at least one character). -/
def stripTags (cs : List Char) : List Char :=
  stripTagsFuel cs.length cs

/-- QueryServerPlugin._extract_server_name: empty (falsy) Info gives the
fixed unknown-name text; otherwise base64-decode, UTF-8-decode ignoring bad
bytes, delete tags, and collapse whitespace runs to single spaces; any
exception inside the try block (bad padding, or a non-string argument to
b64decode) is caught and becomes the fixed parse-failure text. -/
def _extract_server_name (info_b64 : Json) : String :=
  if !info_b64.truthy then "未知服务器"
  else
    match info_b64 with
    | Json.str s =>
      match b64decode s with
      | Except.error _ => "名称解析失败"
      | Except.ok bytes =>
        pyJoin " " (splitWS (String.mk (stripTags (utf8DecodeIgnore bytes))))
    | _ => "名称解析失败"

/-! ## Report rendering (QueryServerPlugin._parse_servers) -/

/-- Python format spec "2d" for the roster counter (width two,
right-aligned). -/
def fmt2d (j : Nat) : String :=
  if j < 10 then " " ++ toString j else toString j

/-- players[:10] — Python slicing: lists and strings slice (a string
slices to its characters); other types raise TypeError, which the caller's
per-target handler reports. -/
def pySlice10 : Json → Except String (List Json)
  | Json.arr xs => Except.ok (xs.take 10)
  | Json.str s => Except.ok ((s.data.take 10).map (fun c => Json.str (String.mk [c])))
  | _ => Except.error "TypeError"

/-- len(players) — defined for lists, strings and dicts; other types raise
TypeError. -/
def pyLen : Json → Except String Nat
  | Json.arr xs => Except.ok xs.length
  | Json.str s => Except.ok s.length
  | Json.obj fs => Except.ok fs.length
  | _ => Except.error "TypeError"

/-- The roster loop: one numbered line per player taken from the slice;
player.get raises AttributeError when an element is not a dict. -/
def rosterLines (j : Nat) : List Json → Except String (List String)
  | [] => Except.ok []
  | p :: ps =>
    match p with
    | Json.obj pf =>
      match rosterLines (j + 1) ps with
      | Except.ok rest =>
        Except.ok (("    " ++ fmt2d j ++ ". " ++ pyStr (jget pf "nickname" (Json.str "未知"))) :: rest)
      | Except.error e => Except.error e
    | _ => Except.error "AttributeError"

/-- The fixed part of one kept entry's info lines: the header with the
1-based enumeration counter and the account id, the name and field lines,
and the feature-flag line when at least one flag is truthy. -/
def baseLines (account_id : String) (i : Nat) (server : List (String × Json))
    (server_port : String) : List String :=
  let server_name := _extract_server_name (jget server "Info" (Json.str ""))
  let info := ["🖥️ 服务器" ++ toString i ++ " [" ++ account_id ++ "]",
               "  🏷️ 名称: " ++ server_name,
               "  🆔 ID: " ++ pyStr (jget server "ID" (Json.str "未知")),
               "  🕒 最后在线: " ++ pyStr (jget server "LastOnline" (Json.str "未知")),
               "  🔌 端口: " ++ server_port,
               "  📦 版本: " ++ pyStr (jget server "Version" (Json.str "未知")),
               "  👥 人数: " ++ pyStr (jget server "Players" (Json.str "0/0"))]
  let flags := (if (jget server "FF" Json.null).truthy then ["💥友伤"] else []) ++
               (if (jget server "WL" Json.null).truthy then ["🔒白名单"] else []) ++
               (if (jget server "Modded" Json.null).truthy then ["🛠️模组服"] else [])
  if flags.isEmpty then info else info ++ ["  🏷️ 特性: " ++ pyJoin " | " flags]

/-- The info-line list built for one kept Servers entry (index i is the
1-based enumeration counter): fixed header block, optional feature-flag
line, and the roster lines when the entry is online. -/
def renderEntryLines (account_id : String) (i : Nat) (server : List (String × Json))
    (server_port : String) : Except String (List String) :=
  let info := baseLines account_id i server server_port
  if (jget server "Online" Json.null).truthy then
    let players := jget server "PlayersList" (Json.arr [])
    if players.truthy then
      match pySlice10 players with
      | Except.error e => Except.error e
      | Except.ok sliced =>
        match rosterLines 1 sliced with
        | Except.error e => Except.error e
        | Except.ok numbered =>
          match pyLen players with
          | Except.error e => Except.error e
          | Except.ok n =>
            Except.ok (info ++ ["  🎮 玩家列表:"] ++ numbered ++
              (if 10 < n then ["    ...等" ++ toString (n - 10) ++ "人"] else []))
    else Except.ok (info ++ ["  🏜️ 当前无玩家在线"])
  else Except.ok info

/-- One kept entry's rendered block: its info lines joined by newlines. -/
def renderEntry (account_id : String) (i : Nat) (server : List (String × Json))
    (server_port : String) : Except String String :=
  match renderEntryLines account_id i server server_port with
  | Except.ok info => Except.ok (pyJoin "\n" info)
  | Except.error e => Except.error e

/-- The enumerate loop over the Servers value: skip non-dict entries, skip
entries whose stringified Port differs from a supplied port filter, render
the rest; the counter advances on skipped entries too. -/
def renderLoop (account_id : String) (port : Option String) :
    Nat → List Json → Except String (List String)
  | _, [] => Except.ok []
  | i, s :: rest =>
    match s with
    | Json.obj server =>
      let server_port := pyStr (jget server "Port" (Json.str ""))
      if portTruthy port && !(server_port == port.getD "") then
        renderLoop account_id port (i + 1) rest
      else
        match renderEntry account_id i server server_port with
        | Except.error e => Except.error e
        | Except.ok block =>
          match renderLoop account_id port (i + 1) rest with
          | Except.error e => Except.error e
          | Except.ok more => Except.ok (block :: more)
    | _ => renderLoop account_id port (i + 1) rest

/-- Iterating the Servers value with a for loop: lists iterate their
elements, strings their characters, dicts their keys; other truthy values
raise TypeError. -/
def iterElems : Json → Except String (List Json)
  | Json.arr xs => Except.ok xs
  | Json.str s => Except.ok (s.data.map (fun c => Json.str (String.mk [c])))
  | Json.obj fs => Except.ok (fs.map (fun kv => Json.str kv.1))
  | _ => Except.error "TypeError"

/-- QueryServerPlugin._parse_servers: request-level failure when Success is
falsy, a no-data line when Servers is falsy, otherwise the rendered blocks
of the kept entries; when a port filter was supplied and every entry was
skipped, a single no-data-for-port line. -/
def _parse_servers (server_key account_id : String) (data : List (String × Json))
    (port : Option String) : Except String (List String) :=
  if !(jget data "Success" (Json.bool false)).truthy then
    Except.ok ["🔴 " ++ server_key ++ " 请求失败(API返回失败)"]
  else
    let servers := jget data "Servers" (Json.arr [])
    if !servers.truthy then Except.ok ["🟡 " ++ server_key ++ " 无服务器数据"]
    else
      match iterElems servers with
      | Except.error e => Except.error e
      | Except.ok elems =>
        match renderLoop account_id port 1 elems with
        | Except.error e => Except.error e
        | Except.ok server_infos =>
          if portTruthy port && server_infos.isEmpty then
            Except.ok ["🟡 未找到端口 " ++ port.getD "" ++ " 的服务器数据"]
          else Except.ok server_infos

/-! ## The query command (QueryServerPlugin.handle) -/

/-- One query target: server key, account id, optional port filter. -/
abbrev Target := String × String × Option String

/-- Outcome of one remote GET, as seen by the per-target try block: a
timeout, some other exception (carrying its class name), or a response with
a status code and a body that either fails json.loads or decodes to a
dict. -/
inductive RemoteResult where
  | timeout : RemoteResult
  | exn : String → RemoteResult
  | resp : Nat → Except String (List (String × Json)) → RemoteResult

/-- Parse one line of the group file into a query target (the handle loop's
own parsing: at least two tokens, the third token if any is the port,
further tokens ignored). -/
def lineTarget (line : String) : Option Target :=
  let l := pyStrip line
  if l = "" then none
  else
    match splitWS l with
    | p0 :: p1 :: rest => some (p0, p1, rest.head?)
    | _ => none

/-- The target-list accumulation of handle: append each parsed line's tuple
unless an equal tuple is already present (exact-tuple dedup, first
occurrence kept). -/
def parseTargetsAux (acc : List Target) : List String → List Target
  | [] => acc
  | line :: ls =>
    match lineTarget line with
    | none => parseTargetsAux acc ls
    | some t => parseTargetsAux (if t ∈ acc then acc else acc ++ [t]) ls

def parseTargets (lines : List String) : List Target :=
  parseTargetsAux [] lines

/-- The per-target body of the query loop: each failure kind yields one
tagged line; a 200 response with a JSON dict body is rendered, and an
exception escaping the rendering is reported as a generic per-target error
line. -/
def processTarget (fetch : Target → RemoteResult) (t : Target) : List String :=
  match fetch t with
  | RemoteResult.timeout => ["⏳ " ++ t.1 ++ " 请求超时"]
  | RemoteResult.exn name => ["⚠️ " ++ t.1 ++ " 查询异常: " ++ name]
  | RemoteResult.resp status body =>
    if status ≠ 200 then ["🔴 " ++ t.1 ++ " 请求失败(HTTP " ++ toString status ++ ")"]
    else
      match body with
      | Except.error _ => ["⚠️ " ++ t.1 ++ " 返回数据格式异常"]
      | Except.ok data =>
        match _parse_servers t.1 t.2.1 data t.2.2 with
        | Except.ok lst => lst
        | Except.error en => ["⚠️ " ++ t.1 ++ " 查询异常: " ++ en]

/-- Concatenation of the per-target result lines, in target order. -/
def concatMapList (f : α → List β) : List α → List β
  | [] => []
  | x :: xs => f x ++ concatMapList f xs

/-- QueryServerPlugin.handle: not-bound message when the group has no file,
empty message when the file parses to no targets, otherwise the per-target
results joined with blank-line separators (a global failure message if no
target produced any line).  The store is only read, never written. -/
def handleQuery (store : Store) (group_openid : String)
    (fetch : Target → RemoteResult) : String × Store :=
  match store group_openid with
  | none => ("⚠️ 本群未绑定服务器\n请先使用「/绑定服务器 Add」命令", store)
  | some lines =>
    let server_infos := parseTargets lines
    if server_infos.isEmpty then ("⚠️ 本群绑定的服务器信息为空", store)
    else
      let results := concatMapList (processTarget fetch) server_infos
      (if results.isEmpty then "❌ 所有服务器查询失败" else pyJoin "\n\n" results, store)

/-! ## Tokenizer lemmas -/

theorem splitWSAux_cons_nonws (acc : List Char) (c : Char) (hc : isPyWS c = false)
    (cs : List Char) : splitWSAux acc (c :: cs) = splitWSAux (c :: acc) cs := by
  simp [splitWSAux, hc]

theorem splitWSAux_cons_ws_nil (c : Char) (hc : isPyWS c = true) (cs : List Char) :
    splitWSAux [] (c :: cs) = splitWSAux [] cs := by
  simp [splitWSAux, hc]

theorem splitWSAux_append_nonws (t : List Char) (ht : ∀ c ∈ t, isPyWS c = false) :
    ∀ (acc cs : List Char), splitWSAux acc (t ++ cs) = splitWSAux (t.reverse ++ acc) cs := by
  induction t with
  | nil => intro acc cs; simp
  | cons c t ih =>
    intro acc cs
    have hc : isPyWS c = false := ht c (by simp)
    have ht' : ∀ c ∈ t, isPyWS c = false := fun d hd => ht d (by simp [hd])
    rw [List.cons_append, splitWSAux_cons_nonws acc c hc (t ++ cs), ih ht' (c :: acc) cs]
    simp

theorem splitWSAux_nil_ne (acc : List Char) (h : acc ≠ []) :
    splitWSAux acc [] = [String.mk acc.reverse] := by
  simp [splitWSAux, List.isEmpty_eq_false.mpr h]

theorem splitWSAux_ws_ne (acc : List Char) (h : acc ≠ []) (c : Char) (hc : isPyWS c = true)
    (cs : List Char) :
    splitWSAux acc (c :: cs) = String.mk acc.reverse :: splitWSAux [] cs := by
  simp [splitWSAux, hc, List.isEmpty_eq_false.mpr h]

theorem isToken_mk (l : List Char) (hne : l ≠ []) (h : ∀ c ∈ l, isPyWS c = false) :
    isToken (String.mk l) = true := by
  unfold isToken
  simp only [Bool.and_eq_true, Bool.not_eq_true', beq_eq_false_iff_ne, ne_eq,
    List.all_eq_true]
  constructor
  · intro hq
    exact hne (by simpa using congrArg String.data hq)
  · intro c hc
    have : isPyWS c = false := h c (by simpa using hc)
    simp [this]

theorem isToken_data (t : String) (h : isToken t = true) :
    t.data ≠ [] ∧ ∀ c ∈ t.data, isPyWS c = false := by
  unfold isToken at h
  simp only [Bool.and_eq_true, Bool.not_eq_true', beq_eq_false_iff_ne, ne_eq,
    List.all_eq_true] at h
  refine ⟨fun hd => h.1 (String.ext (by simp [hd])), fun c hc => ?_⟩
  have := h.2 c hc
  simpa using this

theorem splitWSAux_token_cons (t : String) (ht : isToken t = true) (rest : List Char) :
    splitWSAux [] (t.data ++ ' ' :: rest) = t :: splitWSAux [] rest := by
  obtain ⟨hne, hnw⟩ := isToken_data t ht
  rw [splitWSAux_append_nonws t.data hnw [] (' ' :: rest)]
  rw [List.append_nil]
  rw [splitWSAux_ws_ne _ (by simpa using hne) ' ' (by decide) rest]
  simp

theorem splitWSAux_token_nil (t : String) (ht : isToken t = true) :
    splitWSAux [] t.data = [t] := by
  obtain ⟨hne, hnw⟩ := isToken_data t ht
  have := splitWSAux_append_nonws t.data hnw [] []
  rw [List.append_nil] at this
  rw [this, List.append_nil, splitWSAux_nil_ne _ (by simpa using hne)]
  simp

theorem splitWS_pyJoin (ts : List String) (h : ∀ t ∈ ts, isToken t = true) :
    splitWS (pyJoin " " ts) = ts := by
  induction ts with
  | nil => rfl
  | cons t ts ih =>
    match ts with
    | [] => exact splitWSAux_token_nil t (h t (by simp))
    | t2 :: ts' =>
      have hdata : (t ++ " " ++ pyJoin " " (t2 :: ts')).data
          = t.data ++ ' ' :: (pyJoin " " (t2 :: ts')).data := by
        simp [String.data_append]
      show splitWSAux [] (t ++ " " ++ pyJoin " " (t2 :: ts')).data = t :: t2 :: ts'
      rw [hdata, splitWSAux_token_cons t (h t (by simp))]
      have := ih (fun u hu => h u (by simp [hu]))
      simpa [splitWS] using this

theorem splitWSAux_tokens :
    ∀ (cs acc : List Char), (∀ c ∈ acc, isPyWS c = false) →
      ∀ t ∈ splitWSAux acc cs, isToken t = true := by
  intro cs
  induction cs with
  | nil =>
    intro acc hacc t htm
    by_cases h : acc = []
    · subst h; simp [splitWSAux] at htm
    · rw [splitWSAux_nil_ne acc h] at htm
      simp only [List.mem_singleton] at htm
      subst htm
      exact isToken_mk _ (by simpa using h) (fun c hc => hacc c (by simpa using hc))
  | cons c cs ih =>
    intro acc hacc t htm
    by_cases hc : isPyWS c = true
    · by_cases h : acc = []
      · subst h
        rw [splitWSAux_cons_ws_nil c hc cs] at htm
        exact ih [] (by simp) t htm
      · rw [splitWSAux_ws_ne acc h c hc cs] at htm
        rcases List.mem_cons.mp htm with h1 | h2
        · subst h1
          exact isToken_mk _ (by simpa using h) (fun d hd => hacc d (by simpa using hd))
        · exact ih [] (by simp) t h2
    · have hc' : isPyWS c = false := by simpa using hc
      rw [splitWSAux_cons_nonws acc c hc' cs] at htm
      refine ih (c :: acc) ?_ t htm
      intro d hd
      rcases List.mem_cons.mp hd with h1 | h2
      · subst h1; exact hc'
      · exact hacc d h2

theorem splitWSAux_ws_only (suffix : List Char) (h : ∀ c ∈ suffix, isPyWS c = true) :
    splitWSAux [] suffix = [] := by
  induction suffix with
  | nil => rfl
  | cons c cs ih =>
    rw [splitWSAux_cons_ws_nil c (h c (by simp)) cs]
    exact ih (fun d hd => h d (by simp [hd]))

theorem splitWSAux_append_ws (suffix : List Char) (hsf : ∀ c ∈ suffix, isPyWS c = true) :
    ∀ (cs acc : List Char), splitWSAux acc (cs ++ suffix) = splitWSAux acc cs := by
  intro cs
  induction cs with
  | nil =>
    intro acc
    match suffix, hsf with
    | [], _ => simp
    | w :: sfx, hsf =>
      by_cases h : acc = []
      · subst h
        rw [List.nil_append, splitWSAux_cons_ws_nil w (hsf w (by simp)) sfx]
        exact splitWSAux_ws_only sfx (fun d hd => hsf d (by simp [hd]))
      · rw [List.nil_append, splitWSAux_ws_ne acc h w (hsf w (by simp)) sfx,
          splitWSAux_nil_ne acc h, splitWSAux_ws_only sfx (fun d hd => hsf d (by simp [hd]))]
  | cons c cs ih =>
    intro acc
    by_cases hc : isPyWS c = true
    · by_cases h : acc = []
      · subst h
        rw [List.cons_append, splitWSAux_cons_ws_nil c hc (cs ++ suffix),
          splitWSAux_cons_ws_nil c hc cs]
        exact ih []
      · rw [List.cons_append, splitWSAux_ws_ne acc h c hc (cs ++ suffix),
          splitWSAux_ws_ne acc h c hc cs, ih []]
    · have hc' : isPyWS c = false := by simpa using hc
      rw [List.cons_append, splitWSAux_cons_nonws acc c hc' (cs ++ suffix),
        splitWSAux_cons_nonws acc c hc' cs]
      exact ih (c :: acc)

theorem splitWSAux_dropWhile (cs : List Char) :
    splitWSAux [] (cs.dropWhile isPyWS) = splitWSAux [] cs := by
  induction cs with
  | nil => rfl
  | cons c cs ih =>
    by_cases hc : isPyWS c = true
    · rw [List.dropWhile_cons]
      simp only [hc, if_true]
      rw [ih, splitWSAux_cons_ws_nil c hc cs]
    · have hc' : isPyWS c = false := by simpa using hc
      rw [List.dropWhile_cons]
      simp [hc']

theorem splitWS_pyStrip (s : String) : splitWS (pyStrip s) = splitWS s := by
  unfold splitWS pyStrip
  have hdecomp : s.data.dropWhile isPyWS
      = ((s.data.dropWhile isPyWS).reverse.dropWhile isPyWS).reverse
        ++ ((s.data.dropWhile isPyWS).reverse.takeWhile isPyWS).reverse := by
    conv_lhs => rw [← List.reverse_reverse (s.data.dropWhile isPyWS)]
    rw [← List.reverse_append, List.takeWhile_append_dropWhile]
  have hws : ∀ c ∈ ((s.data.dropWhile isPyWS).reverse.takeWhile isPyWS).reverse,
      isPyWS c = true := by
    intro c hc
    exact List.mem_takeWhile_imp (List.mem_reverse.mp hc)
  calc splitWSAux [] (String.mk (((s.data.dropWhile isPyWS).reverse.dropWhile isPyWS).reverse)).data
      = splitWSAux [] (((s.data.dropWhile isPyWS).reverse.dropWhile isPyWS).reverse
          ++ ((s.data.dropWhile isPyWS).reverse.takeWhile isPyWS).reverse) := by
        rw [splitWSAux_append_ws _ hws]
    _ = splitWSAux [] (s.data.dropWhile isPyWS) := by rw [← hdecomp]
    _ = splitWSAux [] s.data := splitWSAux_dropWhile s.data

theorem parseRecordLine_eq (line : String) :
    parseRecordLine line
      = if 2 ≤ (splitWS line).length then some (splitWS line) else none := by
  unfold parseRecordLine
  by_cases h : pyStrip line = ""
  · have : splitWS line = [] := by
      rw [← splitWS_pyStrip, h]; rfl
    simp [h, this]
  · simp only [h, if_false]
    rw [splitWS_pyStrip]

theorem parseRecordLine_pyJoin (ts : List String) (h : ∀ t ∈ ts, isToken t = true)
    (hlen : 2 ≤ ts.length) : parseRecordLine (pyJoin " " ts) = some ts := by
  rw [parseRecordLine_eq, splitWS_pyJoin ts h]
  simp [hlen]

/-! ## Registry lemmas -/

/-- A well-formed optional port: absent, or a whitespace-free nonempty
token. -/
def wfPort : Option String → Bool
  | none => true
  | some p => isToken p

theorem portTruthy_of_wf (port : Option String) (h : wfPort port = true) :
    portTruthy port = port.isSome := by
  match port with
  | none => rfl
  | some p =>
    have := (isToken_data p h).1
    simp only [portTruthy, Option.isSome_some, Bool.not_eq_true', beq_eq_false_iff_ne, ne_eq]
    intro hq
    exact this (by simpa using congrArg String.data hq)

theorem addRecordLine_eq (server_key account_id : String) (port : Option String)
    (hp : wfPort port = true) :
    addRecordLine server_key account_id port
      = pyJoin " " (server_key :: account_id :: port.toList) := by
  match port with
  | none => simp [addRecordLine, portTruthy, pyJoin]
  | some p =>
    have hpt : portTruthy (some p) = true := by
      rw [portTruthy_of_wf _ hp]; rfl
    simp only [addRecordLine, hpt, if_true, Option.toList_some, Option.getD_some]
    show _ = server_key ++ " " ++ (account_id ++ " " ++ p)
    simp only [String.append_assoc]

theorem load_servers_wf (store : Store) (g : String) :
    ∀ r ∈ _load_servers store g, 2 ≤ r.length ∧ ∀ t ∈ r, isToken t = true := by
  intro r hr
  unfold _load_servers at hr
  match hsg : store g with
  | none => rw [hsg] at hr; simp at hr
  | some lines =>
    rw [hsg] at hr
    obtain ⟨line, _, hparse⟩ := List.mem_filterMap.mp hr
    rw [parseRecordLine_eq] at hparse
    by_cases hlen : 2 ≤ (splitWS line).length
    · rw [if_pos hlen] at hparse
      obtain rfl : splitWS line = r := by injection hparse
      exact ⟨hlen, fun t ht => splitWSAux_tokens line.data [] (by simp) t ht⟩
    · rw [if_neg hlen] at hparse; exact absurd hparse (by simp)

theorem load_servers_some (store : Store) (g : String) (lines : List String)
    (h : store g = some lines) :
    _load_servers store g = lines.filterMap parseRecordLine := by
  unfold _load_servers
  rw [h]

theorem load_servers_getD (store : Store) (g : String) :
    ((store g).getD []).filterMap parseRecordLine = _load_servers store g := by
  unfold _load_servers
  match store g with
  | none => rfl
  | some lines => rfl

theorem add_server_dup (store : Store) (g server_key account_id : String)
    (port : Option String)
    (h : (_load_servers store g).any (identMatch server_key account_id) = true) :
    _add_server store g server_key account_id port = ("ℹ️ 该服务器信息已存在", store) := by
  simp [_add_server, h]

theorem add_server_fresh_store (store : Store) (g server_key account_id : String)
    (port : Option String)
    (h : (_load_servers store g).any (identMatch server_key account_id) = false) :
    (_add_server store g server_key account_id port).2
      = fun g2 => if g2 = g then
          some ((store g).getD [] ++ [addRecordLine server_key account_id port])
        else store g2 := by
  simp [_add_server, h]

theorem add_server_fresh_load (store : Store) (g server_key account_id : String)
    (port : Option String) (hk : isToken server_key = true) (ha : isToken account_id = true)
    (hp : wfPort port = true)
    (h : (_load_servers store g).any (identMatch server_key account_id) = false) :
    _load_servers ((_add_server store g server_key account_id port).2) g
      = _load_servers store g ++ [server_key :: account_id :: port.toList] := by
  have hsg : (_add_server store g server_key account_id port).2 g
      = some ((store g).getD [] ++ [addRecordLine server_key account_id port]) := by
    rw [add_server_fresh_store store g server_key account_id port h]
    simp
  rw [load_servers_some _ _ _ hsg]
  rw [List.filterMap_append, load_servers_getD]
  rw [addRecordLine_eq server_key account_id port hp]
  rw [List.filterMap_cons]
  have htok : ∀ t ∈ server_key :: account_id :: port.toList, isToken t = true := by
    intro t ht
    rcases List.mem_cons.mp ht with h1 | h2
    · subst h1; exact hk
    rcases List.mem_cons.mp h2 with h3 | h4
    · subst h3; exact ha
    · match port, hp with
      | some p, hp => simp only [Option.toList_some, List.mem_singleton] at h4; subst h4; exact hp
  rw [parseRecordLine_pyJoin _ htok (by simp)]
  rfl

theorem add_server_fresh_other (store : Store) (g server_key account_id : String)
    (port : Option String) (g2 : String)
    (h : (_load_servers store g).any (identMatch server_key account_id) = false)
    (hne : g2 ≠ g) :
    (_add_server store g server_key account_id port).2 g2 = store g2 := by
  rw [add_server_fresh_store store g server_key account_id port h]
  simp [hne]

/-- C1: Add returns AlreadyExists and changes nothing when a stored record
already carries the same (serverKey, accountId), whatever ports are
involved; otherwise it appends exactly the one record (serverKey,
accountId, and the port when supplied) and leaves everything else — the
records before it and every other group's collection — unchanged.  The
arguments are the whitespace-free tokens the command split produces. -/
theorem add_server_spec (store : Store) (g server_key account_id : String)
    (port : Option String) (hk : isToken server_key = true)
    (ha : isToken account_id = true) (hp : wfPort port = true) :
    ((_load_servers store g).any (identMatch server_key account_id) = true →
      _add_server store g server_key account_id port = ("ℹ️ 该服务器信息已存在", store))
    ∧ ((_load_servers store g).any (identMatch server_key account_id) = false →
      _load_servers ((_add_server store g server_key account_id port).2) g
          = _load_servers store g ++ [server_key :: account_id :: port.toList]
      ∧ (∀ g2, g2 ≠ g → (_add_server store g server_key account_id port).2 g2 = store g2)) := by
  constructor
  · exact add_server_dup store g server_key account_id port
  · intro h
    exact ⟨add_server_fresh_load store g server_key account_id port hk ha hp h,
      fun g2 hne => add_server_fresh_other store g server_key account_id port g2 h hne⟩

/-- Concrete instance of add_server_spec: a fresh add to an absent
collection stores the record, and a second add with the same identity
(different port) is rejected without a write. -/
theorem add_server_spec_witness :
    _load_servers ((_add_server (fun _ => none) "g" "k" "a" (some "80")).2) "g"
      = [["k", "a", "80"]]
    ∧ _add_server (fun g => if g = "g" then some ["k a 80"] else none) "g" "k" "a" none
      = ("ℹ️ 该服务器信息已存在",
         fun g => if g = "g" then some ["k a 80"] else none) := by
  constructor
  · have h := (add_server_spec (fun _ => none) "g" "k" "a" (some "80")
      (by decide) (by decide) (by decide)).2 (by decide)
    rw [h.1]
    decide
  · exact (add_server_spec (fun g => if g = "g" then some ["k a 80"] else none)
      "g" "k" "a" none (by decide) (by decide) (by decide)).1 (by decide)

theorem filterMap_id_of_some (f : α → Option α) :
    ∀ (l : List α), (∀ a ∈ l, f a = some a) → l.filterMap f = l := by
  intro l
  induction l with
  | nil => intro _; rfl
  | cons a l ih =>
    intro h
    rw [List.filterMap_cons, h a (by simp), ih (fun b hb => h b (by simp [hb]))]

/-- C2: the reply of Remove is Removed or NotFound according to whether any
stored record's first two fields match; the reloaded collection is exactly
the original with every matching record deleted (others kept in order, in
both branches); other groups are untouched; and in the NotFound case the
whole store is exactly as before. -/
theorem remove_server_spec (store : Store) (g server_key account_id : String) :
    ((_remove_server store g server_key account_id).1
      = (if (_load_servers store g).any (identMatch server_key account_id)
         then "✅ 已移除服务器\nKey: " ++ server_key ++ "\nAccountID: " ++ account_id
         else "ℹ️ 未找到匹配的服务器信息"))
    ∧ _load_servers ((_remove_server store g server_key account_id).2) g
        = (_load_servers store g).filter (fun r => !identMatch server_key account_id r)
    ∧ (∀ g2, g2 ≠ g → (_remove_server store g server_key account_id).2 g2 = store g2)
    ∧ ((_load_servers store g).any (identMatch server_key account_id) = false →
        (_remove_server store g server_key account_id).2 = store) := by
  by_cases hA : (_load_servers store g).any (identMatch server_key account_id) = true
  · have hex : ¬ ∀ r ∈ _load_servers store g, (!identMatch server_key account_id r) = true := by
      obtain ⟨r, hr, hm⟩ := List.any_eq_true.mp hA
      intro hall
      have := hall r hr
      rw [hm] at this
      simp at this
    have hne : ¬ ((_load_servers store g).filter
        (fun r => !identMatch server_key account_id r)).length
          = (_load_servers store g).length := by
      intro hq
      exact hex (List.filter_length_eq_length.mp hq)
    have hstep : _remove_server store g server_key account_id
        = ("✅ 已移除服务器\nKey: " ++ server_key ++ "\nAccountID: " ++ account_id,
           fun g2 => if g2 = g then
             some (((_load_servers store g).filter
               (fun r => !identMatch server_key account_id r)).map (fun r => pyJoin " " r))
           else store g2) := by
      simp only [_remove_server]
      rw [if_neg hne]
    refine ⟨by rw [hstep, hA]; rfl, ?_, ?_, ?_⟩
    · have hsg : (_remove_server store g server_key account_id).2 g
          = some (((_load_servers store g).filter
              (fun r => !identMatch server_key account_id r)).map (fun r => pyJoin " " r)) := by
        rw [hstep]; simp
      rw [load_servers_some _ _ _ hsg, List.filterMap_map]
      refine filterMap_id_of_some _ _ ?_
      intro r hr
      have hrs : r ∈ _load_servers store g := List.mem_of_mem_filter hr
      obtain ⟨hlen, htok⟩ := load_servers_wf store g r hrs
      exact parseRecordLine_pyJoin r htok hlen
    · intro g2 hne2
      rw [hstep]
      simp [hne2]
    · intro hq
      rw [hA] at hq
      cases hq
  · have hA' : (_load_servers store g).any (identMatch server_key account_id) = false := by
      simpa using hA
    have hall : ∀ r ∈ _load_servers store g, (!identMatch server_key account_id r) = true := by
      intro r hr
      have := List.any_eq_false.mp hA' r hr
      simp [this]
    have hflt : (_load_servers store g).filter
        (fun r => !identMatch server_key account_id r) = _load_servers store g :=
      List.filter_eq_self.mpr hall
    have hstep : _remove_server store g server_key account_id
        = ("ℹ️ 未找到匹配的服务器信息", store) := by
      simp only [_remove_server]
      rw [if_pos (by rw [hflt])]
    refine ⟨by rw [hstep, hA']; rfl, ?_, ?_, ?_⟩
    · rw [hstep, hflt]
    · intro g2 _
      rw [hstep]
    · intro _
      rw [hstep]

/-- Concrete instance of remove_server_spec: removing (k, a) deletes both
stored variants (with and without a port) and keeps the unrelated record;
removing an unmatched identity leaves the store exactly as it was. -/
theorem remove_server_spec_witness :
    _load_servers ((_remove_server
        (fun g => if g = "g" then some ["k a", "k a 80", "j b"] else none)
        "g" "k" "a").2) "g" = [["j", "b"]]
    ∧ (_remove_server (fun g => if g = "g" then some ["k a", "k a 80", "j b"] else none)
        "g" "x" "y").2
      = (fun g => if g = "g" then some ["k a", "k a 80", "j b"] else none) := by
  constructor
  · have h := (remove_server_spec
      (fun g => if g = "g" then some ["k a", "k a 80", "j b"] else none) "g" "k" "a").2.1
    rw [h]
    decide
  · exact (remove_server_spec
      (fun g => if g = "g" then some ["k a", "k a 80", "j b"] else none) "g" "x" "y").2.2.2
      (by decide)

/-! ## Round-trip of the persisted storage -/

/-- A well-formed record request: whitespace-free nonempty key and account
id, and an optional whitespace-free nonempty port. -/
def wfTarget (t : Target) : Bool :=
  isToken t.1 && isToken t.2.1 && wfPort t.2.2

/-- The token tuple a request is stored and reloaded as. -/
def recFields (t : Target) : List String :=
  t.1 :: t.2.1 :: t.2.2.toList

/-- The identity key of a request (the pair Add and Remove match on). -/
def targetIdent (t : Target) : String × String :=
  (t.1, t.2.1)

/-- Run _add_server once per request, left to right, threading the store. -/
def addAll (store : Store) (g : String) : List Target → Store
  | [] => store
  | t :: rs => addAll ((_add_server store g t.1 t.2.1 t.2.2).2) g rs

theorem identMatch_cons2 (k0 a0 k a : String) (tail : List String) :
    identMatch k0 a0 (k :: a :: tail) = ((k == k0) && (a == a0)) := by
  unfold identMatch
  rw [List.getElem?_cons_zero, show (k :: a :: tail)[1]? = some a from by
    rw [show (1 : Nat) = 0 + 1 from rfl, List.getElem?_cons_succ, List.getElem?_cons_zero]]
  rfl

theorem addAll_load (g : String) : ∀ (rs : List Target) (store : Store),
    (∀ r ∈ rs, wfTarget r = true) →
    (rs.map targetIdent).Nodup →
    (∀ r ∈ rs, (_load_servers store g).any (identMatch r.1 r.2.1) = false) →
    _load_servers (addAll store g rs) g = _load_servers store g ++ rs.map recFields := by
  intro rs
  induction rs with
  | nil => intro store _ _ _; simp [addAll]
  | cons r rs ih =>
    intro store hwf hnd hfresh
    have hwf0 : wfTarget r = true := hwf r (by simp)
    have hk : isToken r.1 = true := by
      have := hwf0; unfold wfTarget at this; simp only [Bool.and_eq_true] at this
      exact this.1.1
    have ha : isToken r.2.1 = true := by
      have := hwf0; unfold wfTarget at this; simp only [Bool.and_eq_true] at this
      exact this.1.2
    have hp : wfPort r.2.2 = true := by
      have := hwf0; unfold wfTarget at this; simp only [Bool.and_eq_true] at this
      exact this.2
    have hfr : (_load_servers store g).any (identMatch r.1 r.2.1) = false :=
      hfresh r (by simp)
    have hload1 : _load_servers ((_add_server store g r.1 r.2.1 r.2.2).2) g
        = _load_servers store g ++ [r.1 :: r.2.1 :: r.2.2.toList] :=
      add_server_fresh_load store g r.1 r.2.1 r.2.2 hk ha hp hfr
    have hnd' : (rs.map targetIdent).Nodup := (List.nodup_cons.mp (by simpa using hnd)).2
    have hnotmem : targetIdent r ∉ rs.map targetIdent :=
      (List.nodup_cons.mp (by simpa using hnd)).1
    have hfresh' : ∀ r' ∈ rs,
        (_load_servers ((_add_server store g r.1 r.2.1 r.2.2).2) g).any
          (identMatch r'.1 r'.2.1) = false := by
      intro r' hr'
      rw [hload1, List.any_append]
      have h1 : (_load_servers store g).any (identMatch r'.1 r'.2.1) = false :=
        hfresh r' (by simp [hr'])
      have h2 : identMatch r'.1 r'.2.1 (r.1 :: r.2.1 :: r.2.2.toList) = false := by
        rw [identMatch_cons2]
        by_contra hq
        have hbeq : ((r.1 == r'.1) && (r.2.1 == r'.2.1)) = true := by
          revert hq
          cases ((r.1 == r'.1) && (r.2.1 == r'.2.1)) <;> simp
        simp only [Bool.and_eq_true, beq_iff_eq] at hbeq
        exact hnotmem (by
          refine List.mem_map.mpr ⟨r', hr', ?_⟩
          unfold targetIdent
          rw [hbeq.1, hbeq.2])
      simp [h1, h2]
    show _load_servers (addAll ((_add_server store g r.1 r.2.1 r.2.2).2) g rs) g = _
    rw [ih _ (fun u hu => hwf u (by simp [hu])) hnd' hfresh', hload1]
    simp [recFields]

/-- C8 counterexample: two well-formed records sharing the identity (k, a)
added in sequence do not both survive the round trip — the second add is
rejected, so the reload differs from the added sequence. -/
theorem roundtrip_cex :
    _load_servers (addAll (fun _ => none) "g" [("k", "a", none), ("k", "a", none)]) "g"
      ≠ ([("k", "a", (none : Option String)), ("k", "a", none)]).map recFields := by
  decide

/-- C8 (amended): for well-formed records with pairwise distinct identity
pairs, adding them one by one to an initially absent collection and
reloading yields exactly the same field tuples in the same order. -/
theorem roundtrip_amended (g : String) (rs : List Target)
    (hwf : ∀ r ∈ rs, wfTarget r = true)
    (hnd : (rs.map targetIdent).Nodup) :
    _load_servers (addAll (fun _ => none) g rs) g = rs.map recFields := by
  have hempty : _load_servers (fun _ => none) g = [] := rfl
  have h := addAll_load g rs (fun _ => none) hwf hnd
    (fun r _ => by rw [hempty]; rfl)
  rw [h, hempty, List.nil_append]

/-- Concrete instance of roundtrip_amended: two distinct-identity records,
one with a port and one without, round-trip exactly. -/
theorem roundtrip_amended_witness :
    _load_servers (addAll (fun _ => none) "g" [("k", "a", some "80"), ("k", "b", none)]) "g"
      = [["k", "a", "80"], ["k", "b"]] := by
  have h := roundtrip_amended "g" [("k", "a", some "80"), ("k", "b", none)]
    (by decide) (by decide)
  rw [h]
  decide

/-! ## Query-target deduplication -/

/-- The per-line target tuples of the query loop, before deduplication. -/
def rawTargets (lines : List String) : List Target :=
  lines.filterMap lineTarget

/-- The claim's description of the dedup: keep the first occurrence of each
tuple, in first-seen order (later equal tuples are dropped). -/
def specFirstSeen {α : Type} [DecidableEq α] : List α → List α
  | [] => []
  | x :: xs => x :: specFirstSeen (xs.filter (fun y => decide (y ≠ x)))
termination_by l => l.length
decreasing_by
  simp only [List.length_cons]
  exact Nat.lt_succ_of_le (List.length_filter_le _ _)

theorem parseTargetsAux_cons (acc : List Target) (line : String) (ls : List String) :
    parseTargetsAux acc (line :: ls)
      = match lineTarget line with
        | none => parseTargetsAux acc ls
        | some t => parseTargetsAux (if t ∈ acc then acc else acc ++ [t]) ls := rfl

theorem parseTargetsAux_foldl :
    ∀ (ls : List String) (acc : List Target),
      parseTargetsAux acc ls
        = (ls.filterMap lineTarget).foldl
            (fun acc t => if t ∈ acc then acc else acc ++ [t]) acc := by
  intro ls
  induction ls with
  | nil => intro acc; rfl
  | cons line ls ih =>
    intro acc
    match h : lineTarget line with
    | none =>
      rw [parseTargetsAux_cons, h]
      show parseTargetsAux acc ls = _
      rw [ih acc, List.filterMap_cons, h]
    | some t =>
      rw [parseTargetsAux_cons, h]
      show parseTargetsAux (if t ∈ acc then acc else acc ++ [t]) ls = _
      rw [ih _, List.filterMap_cons, h, List.foldl_cons]

theorem foldl_dedup_spec :
    ∀ (l acc : List Target),
      l.foldl (fun acc x => if x ∈ acc then acc else acc ++ [x]) acc
        = acc ++ specFirstSeen (l.filter (fun x => decide (x ∉ acc))) := by
  intro l
  induction l with
  | nil => intro acc; simp [specFirstSeen]
  | cons x xs ih =>
    intro acc
    rw [List.foldl_cons]
    by_cases hx : x ∈ acc
    · rw [if_pos hx, ih acc]
      have hpred : (decide (x ∉ acc)) = false := by simp [hx]
      rw [List.filter_cons]
      simp only [hpred, Bool.false_eq_true, if_false]
    · rw [if_neg hx, ih (acc ++ [x])]
      have hpred : (decide (x ∉ acc)) = true := by simp [hx]
      rw [List.filter_cons]
      simp only [hpred, if_true]
      rw [show specFirstSeen (x :: xs.filter (fun y => decide (y ∉ acc)))
          = x :: specFirstSeen ((xs.filter (fun y => decide (y ∉ acc))).filter
              (fun y => decide (y ≠ x))) from by rw [specFirstSeen]]
      rw [List.filter_filter]
      have hpreds : ∀ y ∈ xs,
          (decide (y ≠ x) && decide (y ∉ acc)) = decide (y ∉ acc ++ [x]) := by
        intro y _
        by_cases h1 : y = x
        · subst h1; simp
        · by_cases h2 : y ∈ acc <;> simp [h1, h2]
      rw [List.filter_congr hpreds]
      simp

theorem mem_specFirstSeen {α : Type} [DecidableEq α] (l : List α) (a : α) :
    a ∈ specFirstSeen l ↔ a ∈ l := by
  induction l using specFirstSeen.induct with
  | case1 => rw [specFirstSeen]
  | case2 x xs ih =>
    rw [specFirstSeen]
    simp only [List.mem_cons]
    constructor
    · rintro (rfl | hmem)
      · exact Or.inl rfl
      · exact Or.inr (List.mem_of_mem_filter (ih.mp hmem))
    · rintro (rfl | hmem)
      · exact Or.inl rfl
      · by_cases hxa : a = x
        · exact Or.inl hxa
        · exact Or.inr (ih.mpr (List.mem_filter.mpr ⟨hmem, by simp [hxa]⟩))

theorem nodup_specFirstSeen {α : Type} [DecidableEq α] (l : List α) :
    (specFirstSeen l).Nodup := by
  induction l using specFirstSeen.induct with
  | case1 => rw [specFirstSeen]; exact List.nodup_nil
  | case2 x xs ih =>
    rw [specFirstSeen]
    refine List.nodup_cons.mpr ⟨?_, ih⟩
    intro hmem
    have h1 := (mem_specFirstSeen _ x).mp hmem
    have h2 := List.of_mem_filter h1
    simp at h2

/-- C4: the target list the query loop issues one request per element of is
exactly the raw per-line tuple list deduplicated by full tuple, first
occurrence kept in first-seen order; it has no duplicate tuple, and a tuple
(including its port-or-absent component) is queried iff it occurs on some
stored line — so two bindings differing only in port stay distinct
targets. -/
theorem query_targets_dedup (lines : List String) :
    parseTargets lines = specFirstSeen (rawTargets lines)
    ∧ (parseTargets lines).Nodup
    ∧ (∀ t : Target, t ∈ parseTargets lines ↔ t ∈ rawTargets lines) := by
  have h1 : parseTargets lines = specFirstSeen (rawTargets lines) := by
    unfold parseTargets rawTargets
    refine (parseTargetsAux_foldl lines []).trans ?_
    refine (foldl_dedup_spec (lines.filterMap lineTarget) []).trans ?_
    rw [List.nil_append, List.filter_eq_self.mpr (by intro a _; simp)]
  exact ⟨h1, h1 ▸ nodup_specFirstSeen _, fun t => h1 ▸ mem_specFirstSeen _ t⟩

/-! ## The query command never writes -/

/-- C9: running the query command returns the store it was given: the
group's persisted collection and every other group's collection reload
exactly as before, whatever the remote outcomes were. -/
theorem query_no_mutation (store : Store) (g : String) (fetch : Target → RemoteResult) :
    (handleQuery store g fetch).2 = store
    ∧ ∀ g2, _load_servers ((handleQuery store g fetch).2) g2 = _load_servers store g2 := by
  have h : (handleQuery store g fetch).2 = store := by
    unfold handleQuery
    cases store g with
    | none => rfl
    | some lines =>
      dsimp only
      split
      · rfl
      · split <;> rfl
  exact ⟨h, fun g2 => by rw [h]⟩

/-! ## Server-name decoding -/

/-- C7 counterexample: the tag pattern does not match the parameterized
BBCode opening tag, so decoding the base64 encoding of
"<b>Test</b> [color=red]Server[/color]" does not give "Test Server". -/
theorem extract_name_cex :
    _extract_server_name (Json.str (b64encode "<b>Test</b> [color=red]Server[/color]"))
      ≠ "Test Server" := by
  decide

/-- C7 (amended): an empty Info field decodes to the fixed unknown-name
text, and the base64 encoding of "<b>Test</b> [color=red]Server[/color]"
decodes to "Test [color=red]Server": the angle-bracket tags and the
letters-only closing tag [/color] are stripped and whitespace is collapsed,
but the parameterized opening tag [color=red] is not matched by the
pattern, hence kept. -/
theorem extract_name_amended :
    _extract_server_name (Json.str "") = "未知服务器"
    ∧ _extract_server_name (Json.str (b64encode "<b>Test</b> [color=red]Server[/color]"))
      = "Test [color=red]Server" := by
  constructor
  · rfl
  · decide

/-! ## Port filtering and block indexing -/

/-- An entry the render loop skips without output when the port filter p is
supplied: a non-dict entry, or a dict whose stringified Port differs
from p. -/
def isSkipped (p : String) : Json → Bool
  | Json.obj s => !(pyStr (jget s "Port" (Json.str "")) == p)
  | _ => true

/-- A dict-shaped JSON value. -/
def isObjJson : Json → Bool
  | Json.obj _ => true
  | _ => false

theorem renderLoop_skip (account_id p : String) (hp : p ≠ "") (i : Nat)
    (s : List (String × Json)) (rest : List Json)
    (hport : pyStr (jget s "Port" (Json.str "")) ≠ p) :
    renderLoop account_id (some p) i (Json.obj s :: rest)
      = renderLoop account_id (some p) (i + 1) rest := by
  have h1 : portTruthy (some p) = true := by simp [portTruthy, hp]
  have h2 : (pyStr (jget s "Port" (Json.str "")) == p) = false :=
    beq_eq_false_iff_ne.mpr hport
  simp only [renderLoop, Option.getD_some, h1, h2, Bool.not_false, Bool.and_self, if_true]

theorem renderLoop_skip_nonobj (account_id : String) (port : Option String) (i : Nat)
    (e : Json) (he : isObjJson e = false) (rest : List Json) :
    renderLoop account_id port i (e :: rest) = renderLoop account_id port (i + 1) rest := by
  cases e <;> first
    | rfl
    | (exfalso; simp [isObjJson] at he)

theorem renderLoop_skipAll (account_id p : String) (hp : p ≠ "") :
    ∀ (es : List Json) (i : Nat), (∀ e ∈ es, isSkipped p e = true) →
      renderLoop account_id (some p) i es = Except.ok [] := by
  intro es
  induction es with
  | nil => intro i _; rfl
  | cons e es ih =>
    intro i hskip
    have hrest : ∀ x ∈ es, isSkipped p x = true := fun x hx => hskip x (by simp [hx])
    match e, hskip e (by simp) with
    | Json.obj s, hsk =>
      have hport : pyStr (jget s "Port" (Json.str "")) ≠ p := by
        intro hq
        rw [show isSkipped p (Json.obj s) = !(pyStr (jget s "Port" (Json.str "")) == p)
          from rfl, hq] at hsk
        simp at hsk
      rw [renderLoop_skip account_id p hp i s es hport]
      exact ih (i + 1) hrest
    | Json.null, _ =>
      rw [renderLoop_skip_nonobj account_id (some p) i Json.null rfl es]
      exact ih (i + 1) hrest
    | Json.bool b, _ =>
      rw [renderLoop_skip_nonobj account_id (some p) i (Json.bool b) rfl es]
      exact ih (i + 1) hrest
    | Json.num n, _ =>
      rw [renderLoop_skip_nonobj account_id (some p) i (Json.num n) rfl es]
      exact ih (i + 1) hrest
    | Json.str t, _ =>
      rw [renderLoop_skip_nonobj account_id (some p) i (Json.str t) rfl es]
      exact ih (i + 1) hrest
    | Json.arr xs, _ =>
      rw [renderLoop_skip_nonobj account_id (some p) i (Json.arr xs) rfl es]
      exact ih (i + 1) hrest

/-- C5: with a supplied port filter, the render loop produces no block for a
dict entry whose stringified Port differs from the filter (the loop just
moves on); and when Success holds and the non-empty Servers list consists
only of skipped entries, the whole rendering is the single
no-data-for-this-port line. -/
theorem port_filter_spec (account_id p : String) (hp : p ≠ "") :
    (∀ (i : Nat) (s : List (String × Json)) (rest : List Json),
        pyStr (jget s "Port" (Json.str "")) ≠ p →
        renderLoop account_id (some p) i (Json.obj s :: rest)
          = renderLoop account_id (some p) (i + 1) rest)
    ∧ (∀ (server_key : String) (data : List (String × Json)) (es : List Json),
        (jget data "Success" (Json.bool false)).truthy = true →
        jget data "Servers" (Json.arr []) = Json.arr es →
        es ≠ [] →
        (∀ e ∈ es, isSkipped p e = true) →
        _parse_servers server_key account_id data (some p)
          = Except.ok ["🟡 未找到端口 " ++ p ++ " 的服务器数据"]) := by
  constructor
  · exact fun i s rest hport => renderLoop_skip account_id p hp i s rest hport
  · intro server_key data es hS hserv hne hskip
    have hpt : portTruthy (some p) = true := by simp [portTruthy, hp]
    have htr : (Json.arr es).truthy = true := by
      simp [Json.truthy, List.isEmpty_eq_false.mpr hne]
    unfold _parse_servers
    rw [hS, hserv]
    simp only [htr, Bool.not_true, Bool.false_eq_true, if_false,
      show iterElems (Json.arr es) = Except.ok es from rfl,
      renderLoop_skipAll account_id p hp es 1 hskip]
    simp [hpt]

/-! ## Player roster rendering -/

/-- The numbered roster line of one player dict (missing nickname shows the
unknown placeholder); non-dict players are never rendered (they raise). -/
def playerLine (j : Nat) : Json → String
  | Json.obj pf => "    " ++ fmt2d j ++ ". " ++ pyStr (jget pf "nickname" (Json.str "未知"))
  | _ => ""

theorem rosterLines_mapIdx :
    ∀ (ps : List Json) (j : Nat), (∀ q ∈ ps, isObjJson q = true) →
      rosterLines j ps = Except.ok (ps.mapIdx (fun idx q => playerLine (j + idx) q)) := by
  intro ps
  induction ps with
  | nil => intro j _; simp [rosterLines]
  | cons q ps ih =>
    intro j hobj
    match q, hobj q (by simp) with
    | Json.obj pf, _ =>
      have hrest : ∀ x ∈ ps, isObjJson x = true := fun x hx => hobj x (by simp [hx])
      rw [show rosterLines j (Json.obj pf :: ps)
          = (match rosterLines (j + 1) ps with
             | Except.ok rest => Except.ok
               (("    " ++ fmt2d j ++ ". " ++ pyStr (jget pf "nickname" (Json.str "未知"))) :: rest)
             | Except.error e => Except.error e) from rfl]
      rw [ih (j + 1) hrest]
      rw [List.mapIdx_cons]
      show Except.ok (_ :: _) = Except.ok (_ :: _)
      congr 1
      rw [show (fun idx q => playerLine (j + 1 + idx) q)
          = (fun i q => playerLine (j + (i + 1)) q) from by
        funext idx q2
        congr 1
        omega]
      exact rfl

/-- C6: the roster lines appear iff the entry's Online flag is truthy; when
online with a non-empty player list, exactly the first ten players are
rendered as numbered lines, followed by one remaining-count line when more
than ten exist; when online with a falsy player list, the fixed no-players
line is rendered; and a player dict without a nickname field renders with
the unknown placeholder. -/
theorem roster_spec (account_id : String) (i : Nat) (server : List (String × Json))
    (server_port : String) :
    ((jget server "Online" Json.null).truthy = false →
      renderEntryLines account_id i server server_port
        = Except.ok (baseLines account_id i server server_port))
    ∧ (∀ ps : List Json,
        (jget server "Online" Json.null).truthy = true →
        jget server "PlayersList" (Json.arr []) = Json.arr ps →
        ps ≠ [] →
        (∀ q ∈ ps.take 10, isObjJson q = true) →
        renderEntryLines account_id i server server_port
          = Except.ok (baseLines account_id i server server_port
              ++ ["  🎮 玩家列表:"]
              ++ (ps.take 10).mapIdx (fun idx q => playerLine (idx + 1) q)
              ++ (if 10 < ps.length then ["    ...等" ++ toString (ps.length - 10) ++ "人"]
                  else [])))
    ∧ ((jget server "Online" Json.null).truthy = true →
        (jget server "PlayersList" (Json.arr [])).truthy = false →
        renderEntryLines account_id i server server_port
          = Except.ok (baseLines account_id i server server_port ++ ["  🏜️ 当前无玩家在线"]))
    ∧ (∀ (j : Nat) (pf : List (String × Json)),
        pf.lookup "nickname" = none →
        playerLine j (Json.obj pf) = "    " ++ fmt2d j ++ ". 未知") := by
  refine ⟨?_, ?_, ?_, ?_⟩
  · intro hOnline
    simp only [renderEntryLines, hOnline, Bool.false_eq_true, if_false]
  · intro ps hOnline hpl hne hobj
    have htr : (Json.arr ps).truthy = true := by
      simp [Json.truthy, List.isEmpty_eq_false.mpr hne]
    unfold renderEntryLines
    rw [hOnline, hpl]
    simp only [htr, if_true,
      show pySlice10 (Json.arr ps) = Except.ok (ps.take 10) from rfl,
      rosterLines_mapIdx (ps.take 10) 1 hobj,
      show pyLen (Json.arr ps) = Except.ok ps.length from rfl]
    rw [show (fun idx q => playerLine (1 + idx) q) = (fun idx q => playerLine (idx + 1) q)
      from by funext idx q; rw [Nat.add_comm]]
  · intro hOnline hfl
    unfold renderEntryLines
    rw [hOnline]
    simp only [hfl, Bool.false_eq_true, if_false, if_true]
  · intro j pf hlook
    show "    " ++ fmt2d j ++ ". " ++ pyStr (jget pf "nickname" (Json.str "未知")) = _
    rw [show jget pf "nickname" (Json.str "未知") = Json.str "未知" from by
      unfold jget; rw [hlook]]
    rw [String.append_assoc]
    congr 1

theorem renderLoop_skipLeading (account_id p : String) (hp : p ≠ "") :
    ∀ (ss : List Json), (∀ e ∈ ss, isSkipped p e = true) →
      ∀ (i : Nat) (rest : List Json),
        renderLoop account_id (some p) i (ss ++ rest)
          = renderLoop account_id (some p) (i + ss.length) rest := by
  intro ss
  induction ss with
  | nil => intro _ i rest; simp
  | cons e ss ih =>
    intro hskip i rest
    have hrest : ∀ x ∈ ss, isSkipped p x = true := fun x hx => hskip x (by simp [hx])
    have hlen : (i + 1) + ss.length = i + (e :: ss).length := by
      simp [List.length_cons]
      omega
    rw [List.cons_append]
    match e, hskip e (by simp) with
    | Json.obj s, hsk =>
      have hport : pyStr (jget s "Port" (Json.str "")) ≠ p := by
        intro hq
        rw [show isSkipped p (Json.obj s) = !(pyStr (jget s "Port" (Json.str "")) == p)
          from rfl, hq] at hsk
        simp at hsk
      rw [renderLoop_skip account_id p hp i s (ss ++ rest) hport, ih hrest (i + 1) rest, hlen]
    | Json.null, _ =>
      rw [renderLoop_skip_nonobj account_id (some p) i Json.null rfl (ss ++ rest),
        ih hrest (i + 1) rest, hlen]
    | Json.bool b, _ =>
      rw [renderLoop_skip_nonobj account_id (some p) i (Json.bool b) rfl (ss ++ rest),
        ih hrest (i + 1) rest, hlen]
    | Json.num n, _ =>
      rw [renderLoop_skip_nonobj account_id (some p) i (Json.num n) rfl (ss ++ rest),
        ih hrest (i + 1) rest, hlen]
    | Json.str t, _ =>
      rw [renderLoop_skip_nonobj account_id (some p) i (Json.str t) rfl (ss ++ rest),
        ih hrest (i + 1) rest, hlen]
    | Json.arr xs, _ =>
      rw [renderLoop_skip_nonobj account_id (some p) i (Json.arr xs) rfl (ss ++ rest),
        ih hrest (i + 1) rest, hlen]

theorem exists_cons_of_ite {α : Type} (b : Bool) (x : α) (r l : List α) :
    ∃ t, (if b = true then x :: r else (x :: r) ++ l) = x :: t := by
  cases b
  · exact ⟨r ++ l, by simp⟩
  · exact ⟨r, by simp⟩

theorem baseLines_cons (account_id : String) (i : Nat) (server : List (String × Json))
    (server_port : String) :
    ∃ t, baseLines account_id i server server_port
      = ("🖥️ 服务器" ++ toString i ++ " [" ++ account_id ++ "]") :: t := by
  unfold baseLines
  dsimp only
  exact exists_cons_of_ite _ _ _ _

/-- C10: the index in a rendered block's header is the entry's 1-based
position in the original Servers sequence, counting skipped entries: after
a prefix of skipped entries, the kept entry renders with index
(number of skipped entries) + 1 and the loop continues at the next
position; and the first line of any successfully rendered entry is the
header carrying exactly that counter value. -/
theorem block_index_spec (account_id p : String) (hp : p ≠ "") :
    (∀ (ss : List Json) (s : List (String × Json)) (rest : List Json),
        (∀ e ∈ ss, isSkipped p e = true) →
        pyStr (jget s "Port" (Json.str "")) = p →
        renderLoop account_id (some p) 1 (ss ++ Json.obj s :: rest)
          = match renderEntry account_id (ss.length + 1) s p with
            | Except.error e => Except.error e
            | Except.ok block =>
              match renderLoop account_id (some p) (ss.length + 2) rest with
              | Except.error e => Except.error e
              | Except.ok more => Except.ok (block :: more))
    ∧ (∀ (j : Nat) (sp : String) (s : List (String × Json)) (ls : List String),
        renderEntryLines account_id j s sp = Except.ok ls →
        ls.head? = some ("🖥️ 服务器" ++ toString j ++ " [" ++ account_id ++ "]")) := by
  constructor
  · intro ss s rest hskip hport
    rw [renderLoop_skipLeading account_id p hp ss hskip 1 (Json.obj s :: rest)]
    have hbeq : (pyStr (jget s "Port" (Json.str "")) == (some p).getD "") = true := by
      simp [hport]
    have hcond : (portTruthy (some p) && !(pyStr (jget s "Port" (Json.str "")) == (some p).getD ""))
        = false := by
      rw [hbeq]
      simp
    rw [show renderLoop account_id (some p) (1 + ss.length) (Json.obj s :: rest)
        = (if (portTruthy (some p)
                && !(pyStr (jget s "Port" (Json.str "")) == (some p).getD "")) = true then
            renderLoop account_id (some p) ((1 + ss.length) + 1) rest
          else
            match renderEntry account_id (1 + ss.length) s
                (pyStr (jget s "Port" (Json.str ""))) with
            | Except.error e => Except.error e
            | Except.ok block =>
              match renderLoop account_id (some p) ((1 + ss.length) + 1) rest with
              | Except.error e => Except.error e
              | Except.ok more => Except.ok (block :: more)) from rfl]
    rw [hcond]
    simp only [Bool.false_eq_true, if_false]
    rw [hport, show 1 + ss.length = ss.length + 1 from Nat.add_comm 1 ss.length,
      show ss.length + 1 + 1 = ss.length + 2 from rfl]
  · intro j sp s ls h
    obtain ⟨t, hbase⟩ := baseLines_cons account_id j s sp
    simp only [renderEntryLines] at h
    rw [hbase] at h
    split at h
    · split at h
      · split at h
        · cases h
        · split at h
          · cases h
          · split at h
            · cases h
            · cases h
              rfl
      · cases h
        rfl
    · cases h
      rfl

/-! ## Per-target sections of the query reply -/

/-- C3: with three enumerated targets whose remote outcomes are a timeout,
a non-200 HTTP response, and a successful JSON response rendering to one
block, the reply is exactly the three per-target sections joined by a
blank-line separator, in enumeration order, each depending only on its own
target's outcome. -/
theorem sections_spec (store : Store) (g : String) (fetch : Target → RemoteResult)
    (lines : List String) (t1 t2 t3 : Target) (status : Nat)
    (body2 : Except String (List (String × Json))) (data : List (String × Json))
    (block : String)
    (hstore : store g = some lines)
    (hts : parseTargets lines = [t1, t2, t3])
    (h1 : fetch t1 = RemoteResult.timeout)
    (h2 : fetch t2 = RemoteResult.resp status body2)
    (hst : status ≠ 200)
    (h3 : fetch t3 = RemoteResult.resp 200 (Except.ok data))
    (hparse : _parse_servers t3.1 t3.2.1 data t3.2.2 = Except.ok [block]) :
    (handleQuery store g fetch).1
      = pyJoin "\n\n"
          ["⏳ " ++ t1.1 ++ " 请求超时",
           "🔴 " ++ t2.1 ++ " 请求失败(HTTP " ++ toString status ++ ")",
           block] := by
  have hp1 : processTarget fetch t1 = ["⏳ " ++ t1.1 ++ " 请求超时"] := by
    unfold processTarget
    rw [h1]
  have hp2 : processTarget fetch t2
      = ["🔴 " ++ t2.1 ++ " 请求失败(HTTP " ++ toString status ++ ")"] := by
    unfold processTarget
    rw [h2]
    simp [hst]
  have hp3 : processTarget fetch t3 = [block] := by
    unfold processTarget
    rw [h3]
    simp [hparse]
  unfold handleQuery
  rw [hstore]
  dsimp only
  rw [hts]
  rw [show concatMapList (processTarget fetch) [t1, t2, t3]
      = processTarget fetch t1 ++ (processTarget fetch t2 ++ (processTarget fetch t3 ++ []))
    from rfl]
  rw [hp1, hp2, hp3]
  rfl

/-! ## Concrete witness data -/

/-- A successful response carrying one server dict with port 7777. -/
def dataOne : List (String × Json) :=
  [("Success", Json.bool true), ("Servers", Json.arr [Json.obj [("Port", Json.num 7777)]])]

/-- A successful response whose two Servers entries (a dict with port 7777
and a stray string) are all skipped under the port filter "80". -/
def dataMismatch : List (String × Json) :=
  [("Success", Json.bool true),
   ("Servers", Json.arr [Json.obj [("Port", Json.num 7777)], Json.str "x"])]

/-- Twelve player entries; the third has no nickname field. -/
def playerList12 : List Json :=
  [Json.obj [("nickname", Json.str "P1")], Json.obj [("nickname", Json.str "P2")],
   Json.obj [], Json.obj [("nickname", Json.str "P4")], Json.obj [("nickname", Json.str "P5")],
   Json.obj [("nickname", Json.str "P6")], Json.obj [("nickname", Json.str "P7")],
   Json.obj [("nickname", Json.str "P8")], Json.obj [("nickname", Json.str "P9")],
   Json.obj [("nickname", Json.str "P10")], Json.obj [("nickname", Json.str "P11")],
   Json.obj [("nickname", Json.str "P12")]]

/-- An online server entry with the twelve players above. -/
def server12 : List (String × Json) :=
  [("Online", Json.bool true), ("PlayersList", Json.arr playerList12)]

/-- Group storage with three bindings. -/
def storeThree : Store :=
  fun g => if g = "g" then some ["k1 a1", "k2 a2", "k3 a3"] else none

/-- Remote behavior: k1 times out, k2 answers HTTP 500, k3 succeeds. -/
def fetchThree : Target → RemoteResult := fun t =>
  if t.1 = "k1" then RemoteResult.timeout
  else if t.1 = "k2" then RemoteResult.resp 500 (Except.error "bad")
  else RemoteResult.resp 200 (Except.ok dataOne)

/-- Concrete instance of sections_spec: the three sections appear in
binding order, separated by blank lines, each reflecting its own
outcome. -/
theorem sections_spec_witness :
    (handleQuery storeThree "g" fetchThree).1
      = "⏳ k1 请求超时\n\n🔴 k2 请求失败(HTTP 500)\n\n🖥️ 服务器1 [a3]\n  🏷️ 名称: 未知服务器\n  🆔 ID: 未知\n  🕒 最后在线: 未知\n  🔌 端口: 7777\n  📦 版本: 未知\n  👥 人数: 0/0" := by
  have h := sections_spec storeThree "g" fetchThree ["k1 a1", "k2 a2", "k3 a3"]
    ("k1", "a1", none) ("k2", "a2", none) ("k3", "a3", none) 500 (Except.error "bad")
    dataOne
    "🖥️ 服务器1 [a3]\n  🏷️ 名称: 未知服务器\n  🆔 ID: 未知\n  🕒 最后在线: 未知\n  🔌 端口: 7777\n  📦 版本: 未知\n  👥 人数: 0/0"
    (by decide) (by decide) rfl rfl (by decide) rfl rfl
  exact h.trans (by decide)

/-- Concrete instance of port_filter_spec: a filter matching no entry
yields only the no-data-for-port line. -/
theorem port_filter_spec_witness :
    _parse_servers "k" "a" dataMismatch (some "80")
      = Except.ok ["🟡 未找到端口 80 的服务器数据"] := by
  have h := (port_filter_spec "a" "80" (by decide)).2 "k" dataMismatch
    [Json.obj [("Port", Json.num 7777)], Json.str "x"] rfl rfl
    (by intro hq; cases hq) (by decide)
  exact h.trans (by rfl)

/-- Concrete instance of roster_spec: twelve online players render as ten
numbered lines (the nickname-less third as the unknown placeholder) plus
the remaining-count line stating two more. -/
theorem roster_spec_witness :
    renderEntryLines "a" 1 server12 "80"
      = Except.ok ["🖥️ 服务器1 [a]", "  🏷️ 名称: 未知服务器", "  🆔 ID: 未知",
          "  🕒 最后在线: 未知", "  🔌 端口: 80", "  📦 版本: 未知", "  👥 人数: 0/0",
          "  🎮 玩家列表:", "     1. P1", "     2. P2", "     3. 未知", "     4. P4",
          "     5. P5", "     6. P6", "     7. P7", "     8. P8", "     9. P9",
          "    10. P10", "    ...等2人"] := by
  have h := (roster_spec "a" 1 server12 "80").2.1 playerList12 rfl rfl
    (by intro hq; cases hq) (by decide)
  exact h.trans (by rfl)

/-- Concrete instance of block_index_spec: with the first entry filtered
out, the sole rendered block carries index 2. -/
theorem block_index_spec_witness :
    renderLoop "a" (some "80") 1
        [Json.obj [("Port", Json.num 1)], Json.obj [("Port", Json.str "80")]]
      = Except.ok ["🖥️ 服务器2 [a]\n  🏷️ 名称: 未知服务器\n  🆔 ID: 未知\n  🕒 最后在线: 未知\n  🔌 端口: 80\n  📦 版本: 未知\n  👥 人数: 0/0"] := by
  have h := (block_index_spec "a" "80" (by decide)).1 [Json.obj [("Port", Json.num 1)]]
    [("Port", Json.str "80")] [] (by decide) (by decide)
  exact h.trans (by rfl)

end CXPlugin
